import Mathlib

/-
  Shallow embedding of the betbetter ledger and on-chain reconciliation engine.

  Sources embedded here:
  - src/server.js and src/dice3d.js: POST /api/deposit, POST /api/withdraw,
    POST /api/game/place-bet, POST /api/user/reconcile-balance,
    calculateBalanceFromHistory (the two files differ only in the deposit fee
    constant: 0.01 in server.js, 0.05 in dice3d.js, so the handlers are
    modelled once with the fee as a parameter).
  - src/unnamed/part_001: the serverless deposit-verification handler
    (fee 0.05, first-match transfer extraction, floor-to-cents rounding).
  - src/netlify/functions/user-profile.js (second document): the serverless
    withdraw handler.
  - src/netlify/functions/user-reconcile-balance.js: the serverless
    reconciliation handler.

  Amounts are modelled as rationals; the blockchain and randomness
  collaborators are passed in as explicit values (the parsed transaction for
  deposits, the treasury balance and the transfer outcome for withdrawals,
  the 32-bit random sample for bets), exactly as the handlers consume them.
-/

namespace BetBetter

/-- The four ledger entry types of the Transaction schema. -/
inductive TxType
  | deposit
  | withdraw
  | betWin
  | betLoss
deriving DecidableEq

/-- The status enum of the Transaction schema. -/
inductive TxStatus
  | pending
  | completed
  | failed
deriving DecidableEq

/-- One GameTransaction record (the Transaction mongoose schema). -/
structure Tx where
  userId : Nat
  type : TxType
  amount : ℚ
  solAmount : Option ℚ
  tokenAmount : ℚ
  solanaTxHash : Option String
  fromAddress : Option String
  toAddress : Option String
  timestamp : Nat
  status : TxStatus
deriving DecidableEq

/-- The account fields of the User schema that the engine reads and writes. -/
structure User where
  id : Nat
  solanaAddress : Option String
  withdrawAddress : Option String
  gameBalance : ℚ
deriving DecidableEq

/-- The persistent state touched by one handler call: the user record and the
ledger (GameTransaction collection). New entries are consed on the left. -/
structure State where
  user : User
  ledger : List Tx
deriving DecidableEq

/-- One row of the paired preTokenBalances and postTokenBalances arrays of a
parsed Solana transaction. -/
structure TokenBalanceRow where
  preMint : String
  postMint : String
  owner : String
  preAmount : ℚ
  postAmount : ℚ
deriving DecidableEq

/-- A parsed on-chain transaction as returned by the blockchain collaborator:
the meta.err flag and the token balance rows. -/
structure ChainTx where
  err : Bool
  rows : List TokenBalanceRow
deriving DecidableEq

/-- The configured USDC mint address. -/
def usdcMint : String := "EPjFWdd5AufqSSqeM2qN1xzybapC8G4wEGGkZwyTDt1v"

/-- GameTransaction.findOne on solanaTxHash: has this external reference
already been processed? -/
def refProcessed (ledger : List Tx) (sig : String) : Bool :=
  ledger.any (fun t => decide (t.solanaTxHash = some sig))

/-- Number of ledger entries carrying a given external reference. -/
def countRef (r : String) (ledger : List Tx) : Nat :=
  (ledger.filter (fun t => decide (t.solanaTxHash = some r))).length

/-- The transfer-extraction loop of the server.js and dice3d.js deposit
handlers: scan the token balance rows, and for every row on the USDC mint
where the owner lost balance, record that owner as sender together with the
amount lost (no break, so the last matching row wins). -/
def findUsdcTransfer (mint : String) (rows : List TokenBalanceRow) :
    Option (String × ℚ) :=
  rows.foldl
    (fun acc row =>
      if row.preMint = mint ∧ row.postAmount < row.preAmount then
        some (row.owner, row.preAmount - row.postAmount)
      else acc)
    none

/-- The transfer-extraction loop of the serverless deposit handler
(src/unnamed/part_001): it additionally checks the post-balance mint and
stops at the first matching row. -/
def findUsdcTransferFirst (mint : String) (rows : List TokenBalanceRow) :
    Option (String × ℚ) :=
  (rows.find? (fun row =>
      decide (row.preMint = mint ∧ row.postMint = mint ∧
        row.postAmount < row.preAmount))).map
    (fun row => (row.owner, row.preAmount - row.postAmount))

/-- Result of a deposit verification call. -/
inductive DepositResult
  | conflict
  | notFound
  | txFailed
  | noTransfer
  | addressMismatch
  | ok (credited : ℚ) (newBalance : ℚ) (firstDeposit : Bool)
deriving DecidableEq

/-- The manual-verification path of POST /api/deposit in server.js and
dice3d.js, with the fee constant as a parameter (0.01 in server.js, 0.05 in
dice3d.js). `chain` is the blockchain collaborator response for the submitted
signature. -/
def depositExpress (fee : ℚ) (treasury : String) (chain : Option ChainTx)
    (now : Nat) (st : State) (sig : String) : DepositResult × State :=
  if refProcessed st.ledger sig then (.conflict, st)
  else
    match chain with
    | none => (.notFound, st)
    | some tx =>
      if tx.err then (.txFailed, st)
      else
        match findUsdcTransfer usdcMint tx.rows with
        | none => (.noTransfer, st)
        | some (sender, transferred) =>
          match st.user.solanaAddress with
          | some bound =>
            if bound ≠ sender then (.addressMismatch, st)
            else
              (.ok (max 0 (transferred - fee))
                 (st.user.gameBalance + max 0 (transferred - fee)) false,
               { user := { st.user with
                   gameBalance := st.user.gameBalance + max 0 (transferred - fee) },
                 ledger :=
                   { userId := st.user.id
                     type := .deposit
                     amount := max 0 (transferred - fee)
                     solAmount := some transferred
                     tokenAmount := max 0 (transferred - fee)
                     solanaTxHash := some sig
                     fromAddress := some sender
                     toAddress := some treasury
                     timestamp := now
                     status := .completed } :: st.ledger })
          | none =>
              (.ok (max 0 (transferred - fee))
                 (st.user.gameBalance + max 0 (transferred - fee)) true,
               { user := { st.user with
                   solanaAddress := some sender
                   gameBalance := st.user.gameBalance + max 0 (transferred - fee) },
                 ledger :=
                   { userId := st.user.id
                     type := .deposit
                     amount := max 0 (transferred - fee)
                     solAmount := some transferred
                     tokenAmount := max 0 (transferred - fee)
                     solanaTxHash := some sig
                     fromAddress := some sender
                     toAddress := some treasury
                     timestamp := now
                     status := .completed } :: st.ledger })

/-- The serverless deposit-verification handler of src/unnamed/part_001:
fee fixed at 0.05, first-match transfer extraction, credited tokens floored
to two decimals, solAmount recorded after the fee. -/
def depositNetlify (treasury : String) (chain : Option ChainTx)
    (now : Nat) (st : State) (sig : String) : DepositResult × State :=
  if refProcessed st.ledger sig then (.conflict, st)
  else
    match chain with
    | none => (.notFound, st)
    | some tx =>
      if tx.err then (.txFailed, st)
      else
        match findUsdcTransferFirst usdcMint tx.rows with
        | none => (.noTransfer, st)
        | some (sender, transferred) =>
          match st.user.solanaAddress with
          | some bound =>
            if bound ≠ sender then (.addressMismatch, st)
            else
              (.ok ((⌊max 0 (transferred - 5/100) * 100⌋ : ℚ) / 100)
                 (st.user.gameBalance + (⌊max 0 (transferred - 5/100) * 100⌋ : ℚ) / 100)
                 false,
               { user := { st.user with
                   gameBalance := st.user.gameBalance +
                     (⌊max 0 (transferred - 5/100) * 100⌋ : ℚ) / 100 },
                 ledger :=
                   { userId := st.user.id
                     type := .deposit
                     amount := (⌊max 0 (transferred - 5/100) * 100⌋ : ℚ) / 100
                     solAmount := some (max 0 (transferred - 5/100))
                     tokenAmount := (⌊max 0 (transferred - 5/100) * 100⌋ : ℚ) / 100
                     solanaTxHash := some sig
                     fromAddress := some sender
                     toAddress := some treasury
                     timestamp := now
                     status := .completed } :: st.ledger })
          | none =>
              (.ok ((⌊max 0 (transferred - 5/100) * 100⌋ : ℚ) / 100)
                 (st.user.gameBalance + (⌊max 0 (transferred - 5/100) * 100⌋ : ℚ) / 100)
                 true,
               { user := { st.user with
                   solanaAddress := some sender
                   gameBalance := st.user.gameBalance +
                     (⌊max 0 (transferred - 5/100) * 100⌋ : ℚ) / 100 },
                 ledger :=
                   { userId := st.user.id
                     type := .deposit
                     amount := (⌊max 0 (transferred - 5/100) * 100⌋ : ℚ) / 100
                     solAmount := some (max 0 (transferred - 5/100))
                     tokenAmount := (⌊max 0 (transferred - 5/100) * 100⌋ : ℚ) / 100
                     solanaTxHash := some sig
                     fromAddress := some sender
                     toAddress := some treasury
                     timestamp := now
                     status := .completed } :: st.ledger })

/-- A deposit submission, tagged by which handler variant receives it, with
the collaborator inputs that call would see. -/
inductive DepReq
  | express (fee : ℚ) (treasury : String) (chain : Option ChainTx) (now : Nat)
      (sig : String)
  | netlifyFn (treasury : String) (chain : Option ChainTx) (now : Nat)
      (sig : String)

/-- The state after one deposit submission. -/
def depStep (st : State) : DepReq → State
  | .express fee treasury chain now sig =>
      (depositExpress fee treasury chain now st sig).2
  | .netlifyFn treasury chain now sig =>
      (depositNetlify treasury chain now st sig).2

/-- The state after a sequence of deposit submissions. -/
def processDeposits (st : State) (reqs : List DepReq) : State :=
  reqs.foldl depStep st

/-- Result of a withdrawal call. -/
inductive WithdrawResult
  | invalidAmount
  | noWallet
  | addressMismatch
  | insufficientBalance
  | insufficientTreasury
  | transferFailed
  | ok (newBalance : ℚ) (txSig : String)
deriving DecidableEq

/-- The serverless withdraw handler (second document of
src/netlify/functions/user-profile.js). `treasuryUsdc` is the pooled balance
the collaborator reports, `transfer` the outcome of the external payout call
(none = the Solana transaction failed). The third component records whether
the external transfer was attempted. -/
def withdrawNetlify (treasury : String) (treasuryUsdc : ℚ)
    (transfer : Option String) (now : Nat) (st : State) (amount : ℚ) :
    WithdrawResult × State × Bool :=
  if amount ≤ 0 ∨ 10000 < amount then (.invalidAmount, st, false)
  else
    match st.user.solanaAddress with
    | none => (.noWallet, st, false)
    | some dest =>
      if st.user.gameBalance < amount then (.insufficientBalance, st, false)
      else if treasuryUsdc < amount then (.insufficientTreasury, st, false)
      else
        match transfer with
        | none => (.transferFailed, st, true)
        | some sig =>
            (.ok (st.user.gameBalance - amount) sig,
             { user := { st.user with
                 gameBalance := st.user.gameBalance - amount },
               ledger :=
                 { userId := st.user.id
                   type := .withdraw
                   amount := amount
                   solAmount := none
                   tokenAmount := amount
                   solanaTxHash := some sig
                   fromAddress := some treasury
                   toAddress := some dest
                   timestamp := now
                   status := .completed } :: st.ledger },
             true)

/-- POST /api/withdraw of server.js and dice3d.js: the caller supplies the
destination address, which must match the verified wallet; the only amount
validation is that it is positive. -/
def withdrawServer (treasury : String) (treasuryUsdc : ℚ)
    (transfer : Option String) (now : Nat) (st : State) (amount : ℚ)
    (reqAddress : String) : WithdrawResult × State × Bool :=
  if amount ≤ 0 then (.invalidAmount, st, false)
  else
    match st.user.solanaAddress with
    | none => (.noWallet, st, false)
    | some bound =>
      if bound ≠ reqAddress then (.addressMismatch, st, false)
      else if st.user.gameBalance < amount then (.insufficientBalance, st, false)
      else if treasuryUsdc < amount then (.insufficientTreasury, st, false)
      else
        match transfer with
        | none => (.transferFailed, st, true)
        | some sig =>
            (.ok (st.user.gameBalance - amount) sig,
             { user := { st.user with
                 gameBalance := st.user.gameBalance - amount },
               ledger :=
                 { userId := st.user.id
                   type := .withdraw
                   amount := amount
                   solAmount := some amount
                   tokenAmount := amount
                   solanaTxHash := some sig
                   fromAddress := some treasury
                   toAddress := some reqAddress
                   timestamp := now
                   status := .completed } :: st.ledger },
             true)

/-- Result of a place-bet call. -/
inductive BetResult
  | invalidAmount
  | invalidPrecision
  | insufficientBalance
  | rateLimited
  | settled (win : Bool) (newBalance : ℚ)
deriving DecidableEq

/-- The drawn outcome value: the 32-bit sample read from four random bytes,
divided by 0xFFFFFFFF. -/
def drawValue (u : Nat) : ℚ := (u : ℚ) / 4294967295

/-- The configured win threshold 0.50001. -/
def winThreshold : ℚ := 50001 / 100000

/-- POST /api/game/place-bet of dice3d.js (the serverless variant in
src/netlify/functions/game-place-bet.js is identical except that it has no
rate limiting). `u` is the 32-bit sample from the cryptographic source,
`recentBets` the number of bet entries found in the trailing one-second
window. -/
def placeBet (u : Nat) (recentBets : Nat) (now : Nat) (st : State)
    (betAmount : ℚ) : BetResult × State :=
  if betAmount ≤ 0 ∨ 1000000 < betAmount then (.invalidAmount, st)
  else if (⌊betAmount * 100 + 1/2⌋ : ℚ) / 100 ≠ betAmount then
    (.invalidPrecision, st)
  else if st.user.gameBalance < betAmount then (.insufficientBalance, st)
  else if 5 ≤ recentBets then (.rateLimited, st)
  else
    (.settled (decide (drawValue u < winThreshold))
       (st.user.gameBalance +
         if drawValue u < winThreshold then betAmount else -betAmount),
     { user := { st.user with
         gameBalance := st.user.gameBalance +
           if drawValue u < winThreshold then betAmount else -betAmount },
       ledger :=
         { userId := st.user.id
           type := if drawValue u < winThreshold then .betWin else .betLoss
           amount := betAmount
           solAmount := none
           tokenAmount := betAmount
           solanaTxHash := none
           fromAddress := none
           toAddress := none
           timestamp := now
           status := .completed } :: st.ledger })

/-- The per-entry contribution of the reconciliation fold: deposits and bet
wins add the entry amount, withdrawals and bet losses subtract it. -/
def signedAmount (t : Tx) : ℚ :=
  match t.type with
  | .deposit => t.amount
  | .betWin => t.amount
  | .withdraw => -t.amount
  | .betLoss => -t.amount

/-- GameTransaction.find with the userId and completed-status filter of the
reconciliation handler. -/
def completedFor (uid : Nat) (ledger : List Tx) : List Tx :=
  ledger.filter (fun t => decide (t.userId = uid ∧ t.status = .completed))

/-- The balance fold of the serverless reconciliation handler
(src/netlify/functions/user-reconcile-balance.js): the completed entries of
the user, sorted by timestamp, folded with the signed amount from zero. -/
def calculateBalance (uid : Nat) (ledger : List Tx) : ℚ :=
  (List.insertionSort (fun a b => a.timestamp ≤ b.timestamp)
      (completedFor uid ledger)).foldl
    (fun bal t => bal + signedAmount t) 0

/-- The serverless reconciliation handler: returns previousBalance and
newBalance and overwrites the cached balance when it differs from the
recalculated one. -/
def reconcile (st : State) : (ℚ × ℚ) × State :=
  if st.user.gameBalance ≠ calculateBalance st.user.id st.ledger then
    ((st.user.gameBalance, calculateBalance st.user.id st.ledger),
     { st with user := { st.user with
         gameBalance := calculateBalance st.user.id st.ledger } })
  else
    ((st.user.gameBalance, calculateBalance st.user.id st.ledger), st)

/-! ### Helper lemmas -/

theorem countRef_cons (r : String) (e : Tx) (l : List Tx) :
    countRef r (e :: l) =
      (if e.solanaTxHash = some r then 1 else 0) + countRef r l := by
  by_cases h : e.solanaTxHash = some r <;>
    simp [countRef, List.filter_cons, h, Nat.add_comm]

theorem countRef_eq_zero_of_not_processed (l : List Tx) (s : String)
    (h : refProcessed l s = false) : countRef s l = 0 := by
  induction l with
  | nil => rfl
  | cons e t ih =>
    simp only [refProcessed, List.any_cons, Bool.or_eq_false_iff,
      decide_eq_false_iff_not] at h
    rw [countRef_cons, if_neg h.1, ih (by simpa [refProcessed] using h.2)]

theorem depositExpress_ledger_cases (fee : ℚ) (treasury : String)
    (chain : Option ChainTx) (now : Nat) (st : State) (sig : String) :
    (depositExpress fee treasury chain now st sig).2.ledger = st.ledger ∨
    (refProcessed st.ledger sig = false ∧
      ∃ e : Tx, e.solanaTxHash = some sig ∧
        (depositExpress fee treasury chain now st sig).2.ledger =
          e :: st.ledger) := by
  unfold depositExpress
  split
  · exact Or.inl rfl
  next hp =>
    have hp' : refProcessed st.ledger sig = false := by simpa using hp
    split
    · exact Or.inl rfl
    split
    · exact Or.inl rfl
    split
    · exact Or.inl rfl
    split
    · split
      · exact Or.inl rfl
      · exact Or.inr ⟨hp', _, rfl, rfl⟩
    · exact Or.inr ⟨hp', _, rfl, rfl⟩

theorem depositNetlify_ledger_cases (treasury : String)
    (chain : Option ChainTx) (now : Nat) (st : State) (sig : String) :
    (depositNetlify treasury chain now st sig).2.ledger = st.ledger ∨
    (refProcessed st.ledger sig = false ∧
      ∃ e : Tx, e.solanaTxHash = some sig ∧
        (depositNetlify treasury chain now st sig).2.ledger =
          e :: st.ledger) := by
  unfold depositNetlify
  split
  · exact Or.inl rfl
  next hp =>
    have hp' : refProcessed st.ledger sig = false := by simpa using hp
    split
    · exact Or.inl rfl
    split
    · exact Or.inl rfl
    split
    · exact Or.inl rfl
    split
    · split
      · exact Or.inl rfl
      · exact Or.inr ⟨hp', _, rfl, rfl⟩
    · exact Or.inr ⟨hp', _, rfl, rfl⟩

theorem countRef_depStep_le (r : String) (st : State) (q : DepReq)
    (h : countRef r st.ledger ≤ 1) : countRef r (depStep st q).ledger ≤ 1 := by
  have hcases : (depStep st q).ledger = st.ledger ∨
      (refProcessed st.ledger r = false ∧
        ∃ e : Tx, e.solanaTxHash = some r ∧
          (depStep st q).ledger = e :: st.ledger) ∨
      (∃ e : Tx, e.solanaTxHash ≠ some r ∧
        (depStep st q).ledger = e :: st.ledger) := by
    have base : (depStep st q).ledger = st.ledger ∨
        ∃ sig, refProcessed st.ledger sig = false ∧
          ∃ e : Tx, e.solanaTxHash = some sig ∧
            (depStep st q).ledger = e :: st.ledger := by
      cases q with
      | express fee treasury chain now sig =>
        rcases depositExpress_ledger_cases fee treasury chain now st sig with
          h1 | ⟨hp, e, he, hl⟩
        · exact Or.inl h1
        · exact Or.inr ⟨sig, hp, e, he, hl⟩
      | netlifyFn treasury chain now sig =>
        rcases depositNetlify_ledger_cases treasury chain now st sig with
          h1 | ⟨hp, e, he, hl⟩
        · exact Or.inl h1
        · exact Or.inr ⟨sig, hp, e, he, hl⟩
    rcases base with h1 | ⟨sig, hp, e, he, hl⟩
    · exact Or.inl h1
    · by_cases hr : sig = r
      · subst hr
        exact Or.inr (Or.inl ⟨hp, e, he, hl⟩)
      · refine Or.inr (Or.inr ⟨e, ?_, hl⟩)
        rw [he]
        simpa using hr
  rcases hcases with h1 | ⟨hp, e, he, hl⟩ | ⟨e, he, hl⟩
  · rw [h1]; exact h
  · rw [hl, countRef_cons, if_pos he,
      countRef_eq_zero_of_not_processed st.ledger r hp]
  · rw [hl, countRef_cons, if_neg he]
    simpa using h

theorem countRef_processDeposits_le (r : String) (st : State)
    (reqs : List DepReq) (h : countRef r st.ledger ≤ 1) :
    countRef r (processDeposits st reqs).ledger ≤ 1 := by
  induction reqs generalizing st with
  | nil => exact h
  | cons q qs ih =>
    exact ih (depStep st q) (countRef_depStep_le r st q h)

/-! ### Claim theorems -/

/-- Claim C1: a deposit submitted with an external transaction reference that
already appears in the ledger returns a conflict and leaves the state (balance,
bound address, ledger) unchanged, in both the express and the serverless
handler; consequently, over any sequence of deposit submissions through either
handler, a given external reference appears in at most one ledger entry. -/
theorem deposit_duplicate_ref_rejected_and_at_most_once :
    (∀ (fee : ℚ) (treasury : String) (chain : Option ChainTx) (now : Nat)
        (st : State) (sig : String), refProcessed st.ledger sig = true →
        depositExpress fee treasury chain now st sig = (.conflict, st)) ∧
    (∀ (treasury : String) (chain : Option ChainTx) (now : Nat)
        (st : State) (sig : String), refProcessed st.ledger sig = true →
        depositNetlify treasury chain now st sig = (.conflict, st)) ∧
    (∀ (r : String) (st : State) (reqs : List DepReq),
        countRef r st.ledger ≤ 1 →
        countRef r (processDeposits st reqs).ledger ≤ 1) := by
  refine ⟨?_, ?_, ?_⟩
  · intro fee treasury chain now st sig h
    unfold depositExpress
    rw [if_pos (by simp [h])]
  · intro treasury chain now st sig h
    unfold depositNetlify
    rw [if_pos (by simp [h])]
  · exact countRef_processDeposits_le

theorem depositExpress_preserves_bound (fee : ℚ) (treasury : String)
    (chain : Option ChainTx) (now : Nat) (st : State) (sig : String)
    (bound : String) (hb : st.user.solanaAddress = some bound) :
    (depositExpress fee treasury chain now st sig).2.user.solanaAddress =
      some bound := by
  unfold depositExpress
  split
  · exact hb
  split
  · exact hb
  split
  · exact hb
  split
  · exact hb
  split
  · split
    · exact hb
    · exact hb
  next heq => rw [hb] at heq; cases heq

theorem depositNetlify_preserves_bound (treasury : String)
    (chain : Option ChainTx) (now : Nat) (st : State) (sig : String)
    (bound : String) (hb : st.user.solanaAddress = some bound) :
    (depositNetlify treasury chain now st sig).2.user.solanaAddress =
      some bound := by
  unfold depositNetlify
  split
  · exact hb
  split
  · exact hb
  split
  · exact hb
  split
  · exact hb
  split
  · split
    · exact hb
    · exact hb
  next heq => rw [hb] at heq; cases heq

/-- Claim C2: a deposit whose verified sender differs from the already-bound
deposit address is rejected with no state change; a deposit never overwrites a
bound address; and the first successfully verified deposit binds the sender
address. Stated for both the express handler and the serverless handler. -/
theorem bound_deposit_address_policy :
    (∀ (fee : ℚ) (treasury : String) (tx : ChainTx) (now : Nat) (st : State)
        (sig bound sender : String) (amt : ℚ),
        st.user.solanaAddress = some bound →
        findUsdcTransfer usdcMint tx.rows = some (sender, amt) →
        sender ≠ bound →
        (depositExpress fee treasury (some tx) now st sig).2 = st ∧
        ∀ c nb f,
          (depositExpress fee treasury (some tx) now st sig).1 ≠ .ok c nb f) ∧
    (∀ (treasury : String) (tx : ChainTx) (now : Nat) (st : State)
        (sig bound sender : String) (amt : ℚ),
        st.user.solanaAddress = some bound →
        findUsdcTransferFirst usdcMint tx.rows = some (sender, amt) →
        sender ≠ bound →
        (depositNetlify treasury (some tx) now st sig).2 = st ∧
        ∀ c nb f,
          (depositNetlify treasury (some tx) now st sig).1 ≠ .ok c nb f) ∧
    (∀ (fee : ℚ) (treasury : String) (chain : Option ChainTx) (now : Nat)
        (st : State) (sig bound : String),
        st.user.solanaAddress = some bound →
        (depositExpress fee treasury chain now st sig).2.user.solanaAddress =
          some bound) ∧
    (∀ (treasury : String) (chain : Option ChainTx) (now : Nat) (st : State)
        (sig bound : String),
        st.user.solanaAddress = some bound →
        (depositNetlify treasury chain now st sig).2.user.solanaAddress =
          some bound) ∧
    (∀ (fee : ℚ) (treasury : String) (tx : ChainTx) (now : Nat) (st : State)
        (sig sender : String) (amt : ℚ),
        st.user.solanaAddress = none →
        refProcessed st.ledger sig = false →
        tx.err = false →
        findUsdcTransfer usdcMint tx.rows = some (sender, amt) →
        (depositExpress fee treasury (some tx) now st sig).1 =
          .ok (max 0 (amt - fee))
            (st.user.gameBalance + max 0 (amt - fee)) true ∧
        (depositExpress fee treasury (some tx) now st sig).2.user.solanaAddress
          = some sender) ∧
    (∀ (treasury : String) (tx : ChainTx) (now : Nat) (st : State)
        (sig sender : String) (amt : ℚ),
        st.user.solanaAddress = none →
        refProcessed st.ledger sig = false →
        tx.err = false →
        findUsdcTransferFirst usdcMint tx.rows = some (sender, amt) →
        (depositNetlify treasury (some tx) now st sig).1 =
          .ok ((⌊max 0 (amt - 5/100) * 100⌋ : ℚ) / 100)
            (st.user.gameBalance + (⌊max 0 (amt - 5/100) * 100⌋ : ℚ) / 100)
            true ∧
        (depositNetlify treasury (some tx) now st sig).2.user.solanaAddress
          = some sender) := by
  refine ⟨?_, ?_, depositExpress_preserves_bound,
    depositNetlify_preserves_bound, ?_, ?_⟩
  · intro fee treasury tx now st sig bound sender amt hb hfind hne
    have hne' : bound ≠ sender := Ne.symm hne
    by_cases hp : refProcessed st.ledger sig
    · constructor
      · simp [depositExpress, hp]
      · intro c nb f
        simp [depositExpress, hp]
    · by_cases herr : tx.err
      · constructor
        · simp [depositExpress, hp, herr]
        · intro c nb f
          simp [depositExpress, hp, herr]
      · constructor
        · simp [depositExpress, hp, herr, hfind, hb, hne']
        · intro c nb f
          simp [depositExpress, hp, herr, hfind, hb, hne']
  · intro treasury tx now st sig bound sender amt hb hfind hne
    have hne' : bound ≠ sender := Ne.symm hne
    by_cases hp : refProcessed st.ledger sig
    · constructor
      · simp [depositNetlify, hp]
      · intro c nb f
        simp [depositNetlify, hp]
    · by_cases herr : tx.err
      · constructor
        · simp [depositNetlify, hp, herr]
        · intro c nb f
          simp [depositNetlify, hp, herr]
      · constructor
        · simp [depositNetlify, hp, herr, hfind, hb, hne']
        · intro c nb f
          simp [depositNetlify, hp, herr, hfind, hb, hne']
  · intro fee treasury tx now st sig sender amt hb hp herr hfind
    constructor
    · simp [depositExpress, hp, herr, hfind, hb]
    · simp [depositExpress, hp, herr, hfind, hb]
  · intro treasury tx now st sig sender amt hb hp herr hfind
    constructor
    · simp [depositNetlify, hp, herr, hfind, hb]
    · simp [depositNetlify, hp, herr, hfind, hb]

theorem foldl_add_signed (l : List Tx) (init : ℚ) :
    l.foldl (fun bal t => bal + signedAmount t) init =
      init + (l.map signedAmount).sum := by
  induction l generalizing init with
  | nil => simp
  | cons e t ih => simp [ih, add_assoc]

theorem calculateBalance_eq_sum (uid : Nat) (ledger : List Tx) :
    calculateBalance uid ledger =
      ((completedFor uid ledger).map signedAmount).sum := by
  unfold calculateBalance
  rw [foldl_add_signed, zero_add]
  exact (List.Perm.map signedAmount
    (List.perm_insertionSort (fun a b => a.timestamp ≤ b.timestamp)
      (completedFor uid ledger))).sum_eq

theorem reconcile_pair (st : State) :
    (reconcile st).1 =
      (st.user.gameBalance, calculateBalance st.user.id st.ledger) := by
  unfold reconcile
  split <;> rfl

theorem reconcile_balance (st : State) :
    (reconcile st).2.user.gameBalance =
      calculateBalance st.user.id st.ledger := by
  unfold reconcile
  split
  · rfl
  next h => exact not_ne_iff.mp h

theorem reconcile_ledger (st : State) : (reconcile st).2.ledger = st.ledger := by
  unfold reconcile
  split <;> rfl

theorem reconcile_id (st : State) :
    (reconcile st).2.user.id = st.user.id := by
  unfold reconcile
  split <;> rfl

theorem reconcile_noop (st : State)
    (h : st.user.gameBalance = calculateBalance st.user.id st.ledger) :
    reconcile st = ((st.user.gameBalance, st.user.gameBalance), st) := by
  unfold reconcile
  rw [← h]
  simp

/-- Claim C3: reconcile returns the cached balance as previousBalance and, as
newBalance, the signed sum of the completed ledger entries of the account
(deposits and bet wins added, withdrawals and bet losses subtracted); it
overwrites the cached balance with that value and leaves the ledger alone; a
second reconcile with no new entries is a no-op whose previousBalance equals
its newBalance. -/
theorem reconcile_fold_consistency (st : State) :
    (reconcile st).1.1 = st.user.gameBalance ∧
    (reconcile st).1.2 =
      ((completedFor st.user.id st.ledger).map signedAmount).sum ∧
    (reconcile st).2.user.gameBalance = (reconcile st).1.2 ∧
    (reconcile st).2.ledger = st.ledger ∧
    (reconcile (reconcile st).2).1.1 = (reconcile (reconcile st).2).1.2 ∧
    (reconcile (reconcile st).2).2 = (reconcile st).2 := by
  have hb : (reconcile st).2.user.gameBalance =
      calculateBalance (reconcile st).2.user.id (reconcile st).2.ledger := by
    rw [reconcile_balance, reconcile_ledger, reconcile_id]
  have hno := reconcile_noop (reconcile st).2 hb
  refine ⟨?_, ?_, ?_, reconcile_ledger st, ?_, ?_⟩
  · rw [reconcile_pair]
  · rw [reconcile_pair, calculateBalance_eq_sum]
  · rw [reconcile_balance, reconcile_pair]
  · rw [hno]
  · rw [hno]

theorem withdrawNetlify_cases (treasury : String) (tUsdc : ℚ)
    (transfer : Option String) (now : Nat) (st : State) (amount : ℚ) :
    (withdrawNetlify treasury tUsdc transfer now st amount).2.1 = st ∨
    ∃ sig dest, transfer = some sig ∧ st.user.solanaAddress = some dest ∧
      ¬ st.user.gameBalance < amount ∧
      (withdrawNetlify treasury tUsdc transfer now st amount).1 =
        .ok (st.user.gameBalance - amount) sig ∧
      (withdrawNetlify treasury tUsdc transfer now st amount).2.1.user.gameBalance
        = st.user.gameBalance - amount := by
  cases transfer with
  | none =>
    refine Or.inl ?_
    unfold withdrawNetlify
    repeat' split
    all_goals try rfl
    all_goals simp_all
  | some sig =>
    cases hsa : st.user.solanaAddress with
    | none =>
      refine Or.inl ?_
      unfold withdrawNetlify
      rw [hsa]
      split <;> rfl
    | some dest =>
      by_cases hv : amount ≤ 0 ∨ 10000 < amount
      · exact Or.inl (by simp [withdrawNetlify, hv])
      by_cases hbal : st.user.gameBalance < amount
      · exact Or.inl (by simp [withdrawNetlify, hv, hsa, hbal])
      by_cases ht : tUsdc < amount
      · exact Or.inl (by simp [withdrawNetlify, hv, hsa, hbal, ht])
      · exact Or.inr ⟨sig, dest, rfl, rfl, hbal,
          by simp [withdrawNetlify, hv, hsa, hbal, ht],
          by simp [withdrawNetlify, hv, hsa, hbal, ht]⟩

/-- Claim C4: in the serverless withdraw handler, the ledger append and
balance decrement happen only after a successful external payout: with the
validation, wallet and balance checks passed, a pooled treasury balance below
the requested amount aborts with the treasury error and no state change and no
transfer attempt; a failed external transfer aborts with no state change; and
any state change implies the transfer succeeded, the result reporting the
decremented balance. -/
theorem withdraw_external_before_commit :
    (∀ (treasury : String) (tUsdc : ℚ) (transfer : Option String) (now : Nat)
        (st : State) (amount : ℚ) (dest : String),
        ¬(amount ≤ 0 ∨ 10000 < amount) →
        st.user.solanaAddress = some dest →
        ¬ st.user.gameBalance < amount →
        tUsdc < amount →
        withdrawNetlify treasury tUsdc transfer now st amount =
          (.insufficientTreasury, st, false)) ∧
    (∀ (treasury : String) (tUsdc : ℚ) (now : Nat) (st : State) (amount : ℚ),
        (withdrawNetlify treasury tUsdc none now st amount).2.1 = st ∧
        ∀ nb sig,
          (withdrawNetlify treasury tUsdc none now st amount).1 ≠
            .ok nb sig) ∧
    (∀ (treasury : String) (tUsdc : ℚ) (transfer : Option String) (now : Nat)
        (st : State) (amount : ℚ),
        (withdrawNetlify treasury tUsdc transfer now st amount).2.1 ≠ st →
        ∃ sig, transfer = some sig ∧
          (withdrawNetlify treasury tUsdc transfer now st amount).1 =
            .ok (st.user.gameBalance - amount) sig ∧
          (withdrawNetlify treasury tUsdc transfer now st amount).2.1.user.gameBalance
            = st.user.gameBalance - amount) := by
  refine ⟨?_, ?_, ?_⟩
  · intro treasury tUsdc transfer now st amount dest hv hd hbal ht
    simp [withdrawNetlify, hv, hd, hbal, ht]
  · intro treasury tUsdc now st amount
    refine ⟨?_, ?_⟩ <;>
    · unfold withdrawNetlify
      split
      · simp
      split
      · simp
      split
      · simp
      split
      · simp
      simp
  · intro treasury tUsdc transfer now st amount hne
    rcases withdrawNetlify_cases treasury tUsdc transfer now st amount with
      h | ⟨sig, dest, htr, hdest, hbal, hres, hb⟩
    · exact absurd h hne
    · exact ⟨sig, htr, hres, hb⟩

theorem withdrawServer_balance_cases (treasury : String) (tUsdc : ℚ)
    (transfer : Option String) (now : Nat) (st : State) (amount : ℚ)
    (reqAddress : String) :
    (withdrawServer treasury tUsdc transfer now st amount reqAddress).2.1 = st ∨
    (¬ st.user.gameBalance < amount ∧
      (withdrawServer treasury tUsdc transfer now st amount reqAddress).2.1.user.gameBalance
        = st.user.gameBalance - amount) := by
  unfold withdrawServer
  split
  · exact Or.inl rfl
  split
  · exact Or.inl rfl
  split
  · exact Or.inl rfl
  split
  · exact Or.inl rfl
  next hbal =>
    split
    · exact Or.inl rfl
    split
    · exact Or.inl rfl
    · exact Or.inr ⟨hbal, rfl⟩

theorem withdrawServer_insufficient (treasury : String) (tUsdc : ℚ)
    (transfer : Option String) (now : Nat) (st : State) (amount : ℚ)
    (reqAddress : String) (h : st.user.gameBalance < amount) :
    (withdrawServer treasury tUsdc transfer now st amount reqAddress).2.1 = st ∧
    (withdrawServer treasury tUsdc transfer now st amount reqAddress).2.2 = false ∧
    ∀ nb sig,
      (withdrawServer treasury tUsdc transfer now st amount reqAddress).1 ≠
        .ok nb sig := by
  unfold withdrawServer
  repeat' split
  all_goals exact ⟨rfl, rfl, by simp⟩

theorem placeBet_balance_cases (u recentBets now : Nat) (st : State)
    (bet : ℚ) :
    (placeBet u recentBets now st bet).2 = st ∨
    (0 < bet ∧ ¬ st.user.gameBalance < bet ∧
      ((placeBet u recentBets now st bet).2.user.gameBalance =
          st.user.gameBalance + bet ∨
        (placeBet u recentBets now st bet).2.user.gameBalance =
          st.user.gameBalance - bet)) := by
  unfold placeBet
  split
  · exact Or.inl rfl
  next hv =>
    split
    · exact Or.inl rfl
    split
    · exact Or.inl rfl
    next hbal =>
      split
      · exact Or.inl rfl
      refine Or.inr ⟨?_, hbal, ?_⟩
      · push_neg at hv
        exact hv.1
      · by_cases hw : drawValue u < winThreshold
        · exact Or.inl (by simp [hw])
        · exact Or.inr (by simp [hw, sub_eq_add_neg])

theorem placeBet_insufficient (u recentBets now : Nat) (st : State) (bet : ℚ)
    (h : st.user.gameBalance < bet) :
    (placeBet u recentBets now st bet).2 = st ∧
    ∀ w nb, (placeBet u recentBets now st bet).1 ≠ .settled w nb := by
  unfold placeBet
  repeat' split
  all_goals exact ⟨rfl, by simp⟩

/-- Claim C5: starting from a nonnegative balance, neither a withdrawal nor a
bet leaves the balance negative (the balance check precedes the debit); a
withdrawal or bet whose amount strictly exceeds the balance is rejected with
no state change, and for withdrawals no external transfer is attempted. -/
theorem balance_nonnegative_and_insufficient_rejected :
    (∀ (treasury : String) (tUsdc : ℚ) (transfer : Option String) (now : Nat)
        (st : State) (amount : ℚ) (reqAddress : String),
        0 ≤ st.user.gameBalance →
        0 ≤ (withdrawServer treasury tUsdc transfer now st amount
          reqAddress).2.1.user.gameBalance) ∧
    (∀ (u recentBets now : Nat) (st : State) (bet : ℚ),
        0 ≤ st.user.gameBalance →
        0 ≤ (placeBet u recentBets now st bet).2.user.gameBalance) ∧
    (∀ (treasury : String) (tUsdc : ℚ) (transfer : Option String) (now : Nat)
        (st : State) (amount : ℚ) (reqAddress : String),
        st.user.gameBalance < amount →
        (withdrawServer treasury tUsdc transfer now st amount reqAddress).2.1
          = st ∧
        (withdrawServer treasury tUsdc transfer now st amount reqAddress).2.2
          = false ∧
        ∀ nb sig,
          (withdrawServer treasury tUsdc transfer now st amount reqAddress).1
            ≠ .ok nb sig) ∧
    (∀ (u recentBets now : Nat) (st : State) (bet : ℚ),
        st.user.gameBalance < bet →
        (placeBet u recentBets now st bet).2 = st ∧
        ∀ w nb, (placeBet u recentBets now st bet).1 ≠ .settled w nb) := by
  refine ⟨?_, ?_, withdrawServer_insufficient, placeBet_insufficient⟩
  · intro treasury tUsdc transfer now st amount reqAddress h0
    rcases withdrawServer_balance_cases treasury tUsdc transfer now st amount
      reqAddress with h | ⟨hbal, hb⟩
    · rw [h]; exact h0
    · rw [hb]
      push_neg at hbal
      linarith
  · intro u recentBets now st bet h0
    rcases placeBet_balance_cases u recentBets now st bet with
      h | ⟨hpos, hbal, hb | hb⟩
    · rw [h]; exact h0
    · rw [hb]; linarith
    · rw [hb]
      push_neg at hbal
      linarith

/-! ### Concrete fixtures for witnesses and counterexamples -/

/-- A token balance row recording wallet walletA losing 10 USDC. -/
def row10 : TokenBalanceRow :=
  { preMint := usdcMint, postMint := usdcMint, owner := "walletA",
    preAmount := 10, postAmount := 0 }

/-- A successful on-chain transaction containing the 10 USDC transfer. -/
def tx10 : ChainTx := { err := false, rows := [row10] }

/-- A token balance row recording wallet walletA losing 0.03 USDC. -/
def rowTiny : TokenBalanceRow :=
  { preMint := usdcMint, postMint := usdcMint, owner := "walletA",
    preAmount := 3/100, postAmount := 0 }

/-- A successful on-chain transaction containing the 0.03 USDC transfer. -/
def txTiny : ChainTx := { err := false, rows := [rowTiny] }

/-- A fresh account: no bound address, zero balance, empty ledger. -/
def freshState : State where
  user :=
    { id := 1
      solanaAddress := none
      withdrawAddress := none
      gameBalance := 0 }
  ledger := []

/-- An account bound to walletB with balance 5 and an empty ledger. -/
def boundStateB : State where
  user :=
    { id := 2
      solanaAddress := some "walletB"
      withdrawAddress := none
      gameBalance := 5 }
  ledger := []

/-- Claim C6: on a successfully verified transfer of amount T the credited
amount, both in the result and in the appended ledger entry, equals
max(0, T - fee); in particular, with the 0.05 fee a 10.00 transfer on a fresh
account credits exactly 9.95. -/
theorem deposit_fee_credit :
    (∀ (fee : ℚ) (treasury : String) (tx : ChainTx) (now : Nat) (st : State)
        (sig sender : String) (amt : ℚ),
        refProcessed st.ledger sig = false →
        tx.err = false →
        findUsdcTransfer usdcMint tx.rows = some (sender, amt) →
        (st.user.solanaAddress = none ∨ st.user.solanaAddress = some sender) →
        (depositExpress fee treasury (some tx) now st sig).1 =
          .ok (max 0 (amt - fee)) (st.user.gameBalance + max 0 (amt - fee))
            (decide (st.user.solanaAddress = none)) ∧
        ((depositExpress fee treasury (some tx) now st sig).2.ledger.head?.map
          (fun e => e.amount)) = some (max 0 (amt - fee))) ∧
    (depositExpress (5/100) "treasuryT" (some tx10) 0 freshState "sig10").1 =
      .ok (995/100) (995/100) true := by
  constructor
  · intro fee treasury tx now st sig sender amt hp herr hfind hbind
    rcases hbind with hb | hb <;>
      constructor <;> simp [depositExpress, hp, herr, hfind, hb]
  · norm_num [depositExpress, refProcessed, freshState, tx10, row10,
      findUsdcTransfer, usdcMint]

/-- Claim C7 counterexample: with all four random bytes equal to 0xFF the
32-bit sample is 4294967295 and the drawn value u / 0xFFFFFFFF equals 1, which
is not in the half-open interval [0,1); the handler still accepts a bet at
that draw and settles it as a loss. -/
theorem bet_draw_reaches_one_cex :
    drawValue 4294967295 = 1 ∧ ¬ drawValue 4294967295 < 1 ∧
    (placeBet 4294967295 0 0 boundStateB 1).1 = .settled false 4 := by
  refine ⟨?_, ?_, ?_⟩
  · norm_num [drawValue]
  · norm_num [drawValue]
  · norm_num [placeBet, drawValue, winThreshold, boundStateB]

/-- Claim C7 (amended): for every accepted bet of stake S the outcome is the
32-bit cryptographic sample divided by 0xFFFFFFFF, a value in the closed
interval [0,1] (the value 1 is attained at the maximal sample); the player
wins iff the draw is strictly less than the 0.50001 threshold; the balance
changes by exactly +S on a win and -S on a loss; and exactly one completed
bet_win or bet_loss ledger entry with amount S is appended. -/
theorem bet_settlement_amended (u recentBets now : Nat) (st : State) (bet : ℚ)
    (hu : u < 4294967296)
    (hv : ¬(bet ≤ 0 ∨ 1000000 < bet))
    (hprec : (⌊bet * 100 + 1/2⌋ : ℚ) / 100 = bet)
    (hbal : ¬ st.user.gameBalance < bet)
    (hrate : ¬ 5 ≤ recentBets) :
    0 ≤ drawValue u ∧ drawValue u ≤ 1 ∧
    (placeBet u recentBets now st bet).1 =
      .settled (decide (drawValue u < winThreshold))
        (st.user.gameBalance +
          if drawValue u < winThreshold then bet else -bet) ∧
    (placeBet u recentBets now st bet).2.user.gameBalance =
      st.user.gameBalance +
        (if drawValue u < winThreshold then bet else -bet) ∧
    ((placeBet u recentBets now st bet).2.ledger.head?.map
      (fun e => (e.amount, e.status, e.type))) =
      some (bet, TxStatus.completed,
        if drawValue u < winThreshold then TxType.betWin else TxType.betLoss) ∧
    (placeBet u recentBets now st bet).2.ledger.tail = st.ledger := by
  have h0 : 0 ≤ drawValue u := by
    unfold drawValue
    positivity
  have h1 : drawValue u ≤ 1 := by
    have hle : u ≤ 4294967295 := by omega
    unfold drawValue
    rw [div_le_one (by norm_num)]
    exact_mod_cast hle
  have hprec2 : (⌊bet * 100 + 2⁻¹⌋ : ℚ) / 100 = bet := by
    rwa [one_div] at hprec
  refine ⟨h0, h1, ?_, ?_, ?_, ?_⟩ <;>
    simp [placeBet, hv, hprec2, hbal, hrate]

/-- Claim C10: a verified transfer whose amount is at most the fee still
completes: it credits zero, appends a completed deposit entry of amount 0
carrying the submitted reference (so the reference is consumed and a
resubmission meets the duplicate guard), and on a first deposit still binds
the sender address. -/
theorem tiny_deposit_still_completes (fee : ℚ) (treasury : String)
    (tx : ChainTx) (now : Nat) (st : State) (sig sender : String) (amt : ℚ)
    (hp : refProcessed st.ledger sig = false)
    (herr : tx.err = false)
    (hfind : findUsdcTransfer usdcMint tx.rows = some (sender, amt))
    (hfee : amt ≤ fee)
    (hbind : st.user.solanaAddress = none ∨ st.user.solanaAddress = some sender) :
    (depositExpress fee treasury (some tx) now st sig).1 =
      .ok 0 st.user.gameBalance (decide (st.user.solanaAddress = none)) ∧
    (depositExpress fee treasury (some tx) now st sig).2.user.gameBalance =
      st.user.gameBalance ∧
    (depositExpress fee treasury (some tx) now st sig).2.user.solanaAddress =
      some sender ∧
    ((depositExpress fee treasury (some tx) now st sig).2.ledger.head?.map
      (fun e => (e.amount, e.solanaTxHash, e.status, e.type))) =
      some (0, some sig, TxStatus.completed, TxType.deposit) ∧
    (depositExpress fee treasury (some tx) now st sig).2.ledger.tail =
      st.ledger ∧
    refProcessed (depositExpress fee treasury (some tx) now st sig).2.ledger
      sig = true := by
  have hmax : max 0 (amt - fee) = 0 :=
    max_eq_left (by linarith)
  have hp' : ¬∃ x ∈ st.ledger, x.solanaTxHash = some sig := by
    simpa [refProcessed] using hp
  rcases hbind with hb | hb <;>
    refine ⟨?_, ?_, ?_, ?_, ?_, ?_⟩ <;>
      simp [depositExpress, refProcessed, hp', herr, hfind, hb, hmax]

/-- An account bound to walletA with an explicit withdraw address walletW set,
balance 5, empty ledger. -/
def payoutState : State where
  user :=
    { id := 4
      solanaAddress := some "walletA"
      withdrawAddress := some "walletW"
      gameBalance := 5 }
  ledger := []

/-- Claim C8: the withdraw handler sends the payout to the bound deposit
address (user.solanaAddress) even when the user has set an explicit withdraw
address: on an account bound to walletA with withdraw address walletW, a
successful withdrawal records walletA, not walletW, as the destination. The
schema documents withdrawAddress as the address the user wants to receive
withdrawals to, and no withdraw path reads it, so the code contradicts its own
documentation here. -/
theorem withdraw_destination_ignores_payout_address :
    payoutState.user.withdrawAddress = some "walletW" ∧
    payoutState.user.solanaAddress = some "walletA" ∧
    (withdrawNetlify "treasuryT" 10 (some "sigX") 9 payoutState 1).1 =
      .ok 4 "sigX" ∧
    ((withdrawNetlify "treasuryT" 10 (some "sigX") 9 payoutState 1).2.1.ledger.map
      (fun e => e.toAddress)) = [some "walletA"] := by
  refine ⟨rfl, rfl, ?_, ?_⟩ <;>
    norm_num [withdrawNetlify, payoutState]

/-- Claim C9 counterexample: the requested amount 1.001 violates the
two-decimal bound (rounding it to two decimals yields 1, not 1.001), yet the
withdraw handler accepts it: the external transfer is attempted, the ledger
gains an entry and the balance drops to 3.999, so such requests are not
rejected. -/
theorem withdraw_accepts_three_decimals_cex :
    ¬ (⌊(1001/1000 : ℚ) * 100 + 1/2⌋ : ℚ) / 100 = 1001/1000 ∧
    (withdrawNetlify "treasuryT" 10 (some "sigY") 2 payoutState
      (1001/1000)).1 = .ok (3999/1000) "sigY" ∧
    (withdrawNetlify "treasuryT" 10 (some "sigY") 2 payoutState
      (1001/1000)).2.2 = true ∧
    (withdrawNetlify "treasuryT" 10 (some "sigY") 2 payoutState
      (1001/1000)).2.1.ledger.length = 1 := by
  refine ⟨by norm_num, ?_, ?_, ?_⟩ <;>
    norm_num [withdrawNetlify, payoutState]

/-- Claim C9 (amended): a withdrawal request is validated before any external
or storage call, but the only policy bounds are that the requested magnitude
is strictly positive and at most the configured maximum of 10000: a request
violating these is rejected with no state change and no external call. No
fractional-precision bound is checked for withdrawals (the two-decimal check
exists only for bets). -/
theorem withdraw_validation_amended (treasury : String) (tUsdc : ℚ)
    (transfer : Option String) (now : Nat) (st : State) (amount : ℚ)
    (h : amount ≤ 0 ∨ 10000 < amount) :
    withdrawNetlify treasury tUsdc transfer now st amount =
      (.invalidAmount, st, false) := by
  unfold withdrawNetlify
  rw [if_pos h]

/-! ### Witnesses -/

/-- A ledger entry already carrying the reference sigDup. -/
def dupEntry : Tx where
  userId := 1
  type := .deposit
  amount := 1
  solAmount := some 1
  tokenAmount := 1
  solanaTxHash := some "sigDup"
  fromAddress := some "walletA"
  toAddress := some "treasuryT"
  timestamp := 0
  status := .completed

/-- A state whose ledger already contains the entry for sigDup. -/
def dupState : State where
  user :=
    { id := 1
      solanaAddress := some "walletA"
      withdrawAddress := none
      gameBalance := 3 }
  ledger := [dupEntry]

/-- Witness for claim C1 at concrete inputs. -/
theorem deposit_duplicate_ref_rejected_and_at_most_once_witness :
    depositExpress (1/100) "treasuryT" none 0 dupState "sigDup" =
      (.conflict, dupState) ∧
    depositNetlify "treasuryT" none 0 dupState "sigDup" =
      (.conflict, dupState) ∧
    countRef "sigDup"
      (processDeposits dupState
        [.express (5/100) "treasuryT" none 1 "sigDup"]).ledger ≤ 1 :=
  ⟨deposit_duplicate_ref_rejected_and_at_most_once.1 (1/100) "treasuryT" none 0
      dupState "sigDup" (by simp [refProcessed, dupState, dupEntry]),
   deposit_duplicate_ref_rejected_and_at_most_once.2.1 "treasuryT" none 0
      dupState "sigDup" (by simp [refProcessed, dupState, dupEntry]),
   deposit_duplicate_ref_rejected_and_at_most_once.2.2 "sigDup" dupState _
      (by simp [countRef, dupState, dupEntry])⟩

/-- Witness for claim C2 at concrete inputs. -/
theorem bound_deposit_address_policy_witness :
    ((depositExpress (1/100) "treasuryT" (some tx10) 0 boundStateB "sigA").2 =
        boundStateB ∧
      ∀ c nb f,
        (depositExpress (1/100) "treasuryT" (some tx10) 0 boundStateB
          "sigA").1 ≠ .ok c nb f) ∧
    ((depositNetlify "treasuryT" (some tx10) 0 boundStateB "sigA").2 =
        boundStateB ∧
      ∀ c nb f,
        (depositNetlify "treasuryT" (some tx10) 0 boundStateB "sigA").1 ≠
          .ok c nb f) ∧
    (depositExpress (1/100) "treasuryT" none 0 boundStateB
        "sigB").2.user.solanaAddress = some "walletB" ∧
    (depositNetlify "treasuryT" none 0 boundStateB
        "sigB").2.user.solanaAddress = some "walletB" ∧
    ((depositExpress (1/100) "treasuryT" (some tx10) 0 freshState "sigC").1 =
        .ok (max 0 (10 - 1/100))
          (freshState.user.gameBalance + max 0 (10 - 1/100)) true ∧
      (depositExpress (1/100) "treasuryT" (some tx10) 0 freshState
          "sigC").2.user.solanaAddress = some "walletA") ∧
    ((depositNetlify "treasuryT" (some tx10) 0 freshState "sigC").1 =
        .ok ((⌊max (0:ℚ) (10 - 5/100) * 100⌋ : ℚ) / 100)
          (freshState.user.gameBalance +
            (⌊max (0:ℚ) (10 - 5/100) * 100⌋ : ℚ) / 100) true ∧
      (depositNetlify "treasuryT" (some tx10) 0 freshState
          "sigC").2.user.solanaAddress = some "walletA") :=
  ⟨bound_deposit_address_policy.1 (1/100) "treasuryT" tx10 0 boundStateB
      "sigA" "walletB" "walletA" 10 rfl
      (by norm_num [findUsdcTransfer, tx10, row10]) (by simp),
   bound_deposit_address_policy.2.1 "treasuryT" tx10 0 boundStateB
      "sigA" "walletB" "walletA" 10 rfl
      (by norm_num [findUsdcTransferFirst, tx10, row10]) (by simp),
   bound_deposit_address_policy.2.2.1 (1/100) "treasuryT" none 0 boundStateB
      "sigB" "walletB" rfl,
   bound_deposit_address_policy.2.2.2.1 "treasuryT" none 0 boundStateB
      "sigB" "walletB" rfl,
   bound_deposit_address_policy.2.2.2.2.1 (1/100) "treasuryT" tx10 0
      freshState "sigC" "walletA" 10 rfl rfl rfl
      (by norm_num [findUsdcTransfer, tx10, row10]),
   bound_deposit_address_policy.2.2.2.2.2 "treasuryT" tx10 0
      freshState "sigC" "walletA" 10 rfl rfl rfl
      (by norm_num [findUsdcTransferFirst, tx10, row10])⟩

/-- Witness for claim C4 at concrete inputs. -/
theorem withdraw_external_before_commit_witness :
    withdrawNetlify "treasuryT" 1 (some "sigT") 0 boundStateB 3 =
      (.insufficientTreasury, boundStateB, false) ∧
    ((withdrawNetlify "treasuryT" 10 none 0 boundStateB 3).2.1 = boundStateB ∧
      ∀ nb sig,
        (withdrawNetlify "treasuryT" 10 none 0 boundStateB 3).1 ≠
          .ok nb sig) ∧
    (∃ sig, (some "sigZ" : Option String) = some sig ∧
      (withdrawNetlify "treasuryT" 10 (some "sigZ") 0 boundStateB 1).1 =
        .ok (boundStateB.user.gameBalance - 1) sig ∧
      (withdrawNetlify "treasuryT" 10 (some "sigZ") 0 boundStateB
          1).2.1.user.gameBalance = boundStateB.user.gameBalance - 1) :=
  ⟨withdraw_external_before_commit.1 "treasuryT" 1 (some "sigT") 0 boundStateB
      3 "walletB" (by norm_num) rfl (by norm_num [boundStateB]) (by norm_num),
   withdraw_external_before_commit.2.1 "treasuryT" 10 0 boundStateB 3,
   withdraw_external_before_commit.2.2 "treasuryT" 10 (some "sigZ") 0
      boundStateB 1
      (by norm_num [withdrawNetlify, boundStateB, State.mk.injEq,
        User.mk.injEq])⟩

/-- Witness for claim C5 at concrete inputs. -/
theorem balance_nonnegative_and_insufficient_rejected_witness :
    0 ≤ (withdrawServer "treasuryT" 10 (some "sigS") 0 boundStateB 2
      "walletB").2.1.user.gameBalance ∧
    0 ≤ (placeBet 0 0 0 boundStateB 1).2.user.gameBalance ∧
    ((withdrawServer "treasuryT" 10 (some "sigS") 0 boundStateB 7
        "walletB").2.1 = boundStateB ∧
      (withdrawServer "treasuryT" 10 (some "sigS") 0 boundStateB 7
        "walletB").2.2 = false ∧
      ∀ nb sig,
        (withdrawServer "treasuryT" 10 (some "sigS") 0 boundStateB 7
          "walletB").1 ≠ .ok nb sig) ∧
    ((placeBet 0 0 0 boundStateB 7).2 = boundStateB ∧
      ∀ w nb, (placeBet 0 0 0 boundStateB 7).1 ≠ .settled w nb) :=
  ⟨balance_nonnegative_and_insufficient_rejected.1 "treasuryT" 10 (some "sigS")
      0 boundStateB 2 "walletB" (by norm_num [boundStateB]),
   balance_nonnegative_and_insufficient_rejected.2.1 0 0 0 boundStateB 1
      (by norm_num [boundStateB]),
   balance_nonnegative_and_insufficient_rejected.2.2.1 "treasuryT" 10
      (some "sigS") 0 boundStateB 7 "walletB" (by norm_num [boundStateB]),
   balance_nonnegative_and_insufficient_rejected.2.2.2 0 0 0 boundStateB 7
      (by norm_num [boundStateB])⟩

/-- Witness for claim C6 at concrete inputs. -/
theorem deposit_fee_credit_witness :
    (depositExpress (5/100) "treasuryT" (some tx10) 0 freshState "sigW").1 =
      .ok (max 0 (10 - 5/100))
        (freshState.user.gameBalance + max 0 (10 - 5/100))
        (decide (freshState.user.solanaAddress = none)) ∧
    ((depositExpress (5/100) "treasuryT" (some tx10) 0 freshState
        "sigW").2.ledger.head?.map (fun e => e.amount)) =
      some (max 0 (10 - 5/100)) :=
  deposit_fee_credit.1 (5/100) "treasuryT" tx10 0 freshState "sigW" "walletA"
    10 rfl rfl (by norm_num [findUsdcTransfer, tx10, row10]) (Or.inl rfl)

/-- Witness for claim C7 (amended) at concrete inputs. -/
theorem bet_settlement_amended_witness :
    0 ≤ drawValue 0 ∧ drawValue 0 ≤ 1 ∧
    (placeBet 0 0 0 boundStateB 1).1 =
      .settled (decide (drawValue 0 < winThreshold))
        (boundStateB.user.gameBalance +
          if drawValue 0 < winThreshold then 1 else -1) ∧
    (placeBet 0 0 0 boundStateB 1).2.user.gameBalance =
      boundStateB.user.gameBalance +
        (if drawValue 0 < winThreshold then 1 else -1) ∧
    ((placeBet 0 0 0 boundStateB 1).2.ledger.head?.map
      (fun e => (e.amount, e.status, e.type))) =
      some (1, TxStatus.completed,
        if drawValue 0 < winThreshold then TxType.betWin else TxType.betLoss) ∧
    (placeBet 0 0 0 boundStateB 1).2.ledger.tail = boundStateB.ledger :=
  bet_settlement_amended 0 0 0 boundStateB 1 (by norm_num) (by norm_num)
    (by norm_num) (by norm_num [boundStateB]) (by norm_num)

/-- Witness for claim C9 (amended) at a concrete out-of-bounds amount. -/
theorem withdraw_validation_amended_witness :
    withdrawNetlify "treasuryT" 10 (some "sigV") 0 boundStateB 20000 =
      (.invalidAmount, boundStateB, false) :=
  withdraw_validation_amended "treasuryT" 10 (some "sigV") 0 boundStateB 20000
    (Or.inr (by norm_num))

/-- Witness for claim C10 at concrete inputs: a verified 0.03 transfer against
a 0.05 fee. -/
theorem tiny_deposit_still_completes_witness :
    (depositExpress (5/100) "treasuryT" (some txTiny) 0 freshState "sigU").1 =
      .ok 0 freshState.user.gameBalance
        (decide (freshState.user.solanaAddress = none)) ∧
    (depositExpress (5/100) "treasuryT" (some txTiny) 0 freshState
        "sigU").2.user.gameBalance = freshState.user.gameBalance ∧
    (depositExpress (5/100) "treasuryT" (some txTiny) 0 freshState
        "sigU").2.user.solanaAddress = some "walletA" ∧
    ((depositExpress (5/100) "treasuryT" (some txTiny) 0 freshState
        "sigU").2.ledger.head?.map
      (fun e => (e.amount, e.solanaTxHash, e.status, e.type))) =
      some (0, some "sigU", TxStatus.completed, TxType.deposit) ∧
    (depositExpress (5/100) "treasuryT" (some txTiny) 0 freshState
        "sigU").2.ledger.tail = freshState.ledger ∧
    refProcessed (depositExpress (5/100) "treasuryT" (some txTiny) 0 freshState
        "sigU").2.ledger "sigU" = true :=
  tiny_deposit_still_completes (5/100) "treasuryT" txTiny 0 freshState "sigU"
    "walletA" (3/100) rfl rfl
    (by norm_num [findUsdcTransfer, txTiny, rowTiny]) (by norm_num)
    (Or.inl rfl)

end BetBetter
